import Mathlib

/-
Verification development for the backend of the Webionix Chrome extension
(src/backend/server.py).  The per-request pipeline of the handle_query Flask
view is embedded shallowly: Python values flowing through the structured
parsing stage become the inductive type PyVal, the external collaborators
(web loader, text splitter, vector store, QA chain, LLM, structured parser)
become oracle functions returning Except values, and the control flow of the
view -- including the fact that everything after the bare finally: clause at
line 192 is indented inside that finally block -- is reproduced exactly.
The chunking and retrieval stages live in third-party libraries that are not
part of the repository sources, so they are modelled from the specification
and marked as such in their doc comments.
-/

set_option maxRecDepth 8000

namespace WebQA

/-- Python values as they occur in the structured-output stage of
handle_query: strings, integers, booleans, None, lists and dicts (dicts are
association lists in insertion order, with unique keys in practice). -/
inductive PyVal where
  | vstr (s : String)
  | vint (n : Int)
  | vbool (b : Bool)
  | vnone
  | vlist (xs : List PyVal)
  | vdict (fields : List (String × PyVal))

/-- Python truthiness of a PyVal, as used by conditions such as
the check obj.get(k) or the filter clause if v in server.py. -/
def truthy : PyVal → Bool
  | .vstr s => !s.isEmpty
  | .vint n => n != 0
  | .vbool b => b
  | .vnone => false
  | .vlist xs => !xs.isEmpty
  | .vdict fs => !fs.isEmpty

mutual

/-- Python repr of a value (escaping of special characters inside string
literals is elided; no claim depends on it). -/
def pyRepr : PyVal → String
  | .vstr s => "\x27" ++ s ++ "\x27"
  | .vint n => toString n
  | .vbool b => if b then "True" else "False"
  | .vnone => "None"
  | .vlist xs => "[" ++ String.intercalate ", " (pyReprList xs) ++ "]"
  | .vdict fs => "\x7b" ++ String.intercalate ", " (pyReprFields fs) ++ "\x7d"

/-- Helper for pyRepr on list elements. -/
def pyReprList : List PyVal → List String
  | [] => []
  | x :: xs => pyRepr x :: pyReprList xs

/-- Helper for pyRepr on dict entries. -/
def pyReprFields : List (String × PyVal) → List String
  | [] => []
  | kv :: fs => ("\x27" ++ kv.1 ++ "\x27: " ++ pyRepr kv.2) :: pyReprFields fs

end

/-- Python str() of a value: a string is itself, a container or scalar
renders as its repr. -/
def pyStrOf : PyVal → String
  | .vstr s => s
  | v => pyRepr v

mutual

/-- Model of json.dumps(v, ensure_ascii=False) with default separators
(escaping inside string literals elided; no claim depends on it). -/
def jsonDumps : PyVal → String
  | .vstr s => "\"" ++ s ++ "\""
  | .vint n => toString n
  | .vbool b => if b then "true" else "false"
  | .vnone => "null"
  | .vlist xs => "[" ++ String.intercalate ", " (jsonDumpsList xs) ++ "]"
  | .vdict fs => "\x7b" ++ String.intercalate ", " (jsonDumpsFields fs) ++ "\x7d"

/-- Helper for jsonDumps on list elements. -/
def jsonDumpsList : List PyVal → List String
  | [] => []
  | x :: xs => jsonDumps x :: jsonDumpsList xs

/-- Helper for jsonDumps on dict entries. -/
def jsonDumpsFields : List (String × PyVal) → List String
  | [] => []
  | kv :: fs => ("\"" ++ kv.1 ++ "\": " ++ jsonDumps kv.2) :: jsonDumpsFields fs

end

/-- The element transform of the comprehension at server.py line 249:
json.dumps for lists and dicts, str for everything else. -/
def serializeVal : PyVal → String
  | .vlist xs => jsonDumps (.vlist xs)
  | .vdict fs => jsonDumps (.vdict fs)
  | v => pyStrOf v

/-- Model of the Python str.strip() method: remove leading and trailing
whitespace (implemented over the character list so that it is fully
kernel-reducible). -/
def pyStrip (s : String) : String :=
  String.mk (((s.data.dropWhile Char.isWhitespace).reverse.dropWhile
    Char.isWhitespace).reverse)

/-- Model of the Python slice s[:n] on a string: the first n characters
(implemented over the character list so that it is fully
kernel-reducible). -/
def pyTake (s : String) (n : Nat) : String :=
  String.mk (s.data.take n)

/-- Model of the Python test k in obj and obj[k]: some v when key k is
present with a truthy value v, none otherwise. -/
def getTruthy (fs : List (String × PyVal)) (k : String) : Option PyVal :=
  match fs.lookup k with
  | some v => if truthy v then some v else none
  | none => none

/-- Truthiness of an optional value (Python None is falsy). -/
def optTruthy : Option PyVal → Bool
  | some v => truthy v
  | none => false

/-- Python x or y on optional values: the left value when truthy,
otherwise the right one. -/
def pyOr (a b : Option PyVal) : Option PyVal :=
  match a with
  | some v => if truthy v then some v else b
  | none => b

/-- The expression obj.get(title) or obj.get(heading) at server.py
line 244. -/
def titleVal (fs : List (String × PyVal)) : Option PyVal :=
  pyOr (fs.lookup "title") (fs.lookup "heading")

/-- The expression obj.get(sections) or obj.get(bullets) or obj.get(body)
at server.py line 245. -/
def sectionsVal (fs : List (String × PyVal)) : Option PyVal :=
  pyOr (pyOr (fs.lookup "sections") (fs.lookup "bullets")) (fs.lookup "body")

/-- The expression sections[0] if isinstance(sections, list) and sections
else sections at server.py line 247 (only reached when sections is truthy,
so a nonempty list yields its head and anything else yields itself). -/
def firstOf : PyVal → PyVal
  | .vlist (x :: _) => x
  | v => v

/-- Shallow embedding of the helper _concise_from_structured defined at
server.py lines 236-256: for a dict, prefer a truthy answer field, then a
truthy summary field, then a title/heading combined with the first of
sections/bullets/body, else the space-joined serialization of all truthy
values truncated to 2000 characters; for a list, the space-join of the
first five truthy elements; anything else yields none. -/
def _concise_from_structured : PyVal → Option String
  | .vdict fs =>
    match getTruthy fs "answer" with
    | some v => some (pyStrip (pyStrOf v))
    | none =>
      match getTruthy fs "summary" with
      | some v => some (pyStrip (pyStrOf v))
      | none =>
        if optTruthy (titleVal fs) && optTruthy (sectionsVal fs) then
          some (pyStrOf ((titleVal fs).getD .vnone) ++ ": " ++
            pyStrOf (firstOf ((sectionsVal fs).getD .vnone)))
        else
          some (pyTake (String.intercalate " "
            (((fs.map Prod.snd).filter truthy).map serializeVal)) 2000)
  | .vlist xs => some (String.intercalate " " (((xs.filter truthy).map pyStrOf).take 5))
  | _ => none

/-- The expression _concise_from_structured(parsed) or the empty string, at
server.py line 258 (Python x or y collapses both None and the empty string
to the empty string, exactly as getD does here because the only falsy
string is the empty one). -/
def conciseOrEmpty (v : PyVal) : String :=
  (_concise_from_structured v).getD ""

/-- Process-level capabilities of server.py: whether the llm handle, the
embeddings handle and the structured output parser global are non-None, and
the process-wide format instruction string. -/
structure Caps where
  llmInit : Bool
  embeddingsInit : Bool
  structuredInit : Bool
  formatInstructions : String

/-- The JSON body of one request: the values of data.get for the url and
question keys (none models an absent key or a JSON null). -/
structure Req where
  url : Option String
  question : Option String

/-- External collaborators consumed by handle_query, as oracles: each
models one fallible call, with error carrying the exception message. -/
structure Oracles where
  loadDocs : String → Except String (List String)
  splitDocuments : List String → Except String (List String)
  buildVectorstore : List String → Except String Unit
  chainInvoke : String → Except String PyVal
  llmInvoke : String → Except String String
  parseStructured : String → Except String PyVal

/-- A response payload: either an error object or the three-field success
envelope built at server.py lines 260-264. -/
inductive Body where
  | err (msg : String)
  | envelope (answer : String) (raw : PyVal) (structured : PyVal)

/-- The observable result of one handle_query call: a JSON payload with a
status code, or an uncaught Python exception (no JSON payload produced;
Flask then renders a generic 500 page). -/
inductive Outcome where
  | json (status : Nat) (body : Body)
  | nameError (msg : String)

/-- Message of the 500 returned at server.py line 144. -/
def msgModelsNotInit : String := "AI models are not initialized. Check server logs."

/-- Message of the 400 returned at server.py line 154. -/
def msgMissing : String := "Missing \x27url\x27 or \x27question\x27 in request."

/-- Message of the 500 returned at server.py lines 210-212. -/
def msgNoStructured : String :=
  "StructuredOutputParser is not available on the server. Install a compatible LangChain variant."

/-- Message of the 500 returned at server.py line 233. -/
def msgNotStructuredData : String := "StructuredOutputParser did not return structured data."

/-- Message of the NameError raised when the finally block reads the
unbound raw_answer name at server.py line 203. -/
def msgNameErrorRaw : String := "name \x27raw_answer\x27 is not defined"

/-- Message of the NameError raised when the structured prompt f-string
reads the unbound answer_text name at server.py line 219. -/
def msgNameErrorAnswerText : String := "name \x27answer_text\x27 is not defined"

/-- Message of the AttributeError raised when raw_answer.get is called on
a non-dict at server.py line 191 (this exception is later replaced inside
the finally block and never surfaces). -/
def msgAttrErrorGet : String := "object has no attribute \x27get\x27"

/-- Python truthiness test not x for the url and question values: true for
an absent key, a null, or an empty string. -/
def missingField : Option String → Bool
  | none => true
  | some s => s.isEmpty

/-- How the try block of handle_query (server.py lines 148-191) exits:
with an early return, with an exception while raw_answer is still unbound,
with an exception after raw_answer was bound but before answer_text was
(the .get call on a non-dict raw_answer), or normally with both bound. -/
inductive TryExit where
  | earlyRet (status : Nat) (body : Body)
  | exn (msg : String)
  | boundExn (rawAnswer : PyVal) (msg : String)
  | normal (rawAnswer : PyVal) (answerText : String)

/-- The try block of handle_query, server.py lines 148-191: input
validation, then document load, split, vector store build and chain
invocation in order, each exception aborting the block; finally the
answer_text lookup raw_answer.get(result, empty). The answerText field
stores the str() rendering of that value, which is the only way the value
is consumed downstream (inside the prompt f-string). -/
def tryBlock (orc : Oracles) (req : Req) : TryExit :=
  if missingField req.url || missingField req.question then
    .earlyRet 400 (.err msgMissing)
  else
    match orc.loadDocs (req.url.getD "") with
    | .error m => .exn m
    | .ok docs =>
      match orc.splitDocuments docs with
      | .error m => .exn m
      | .ok splits =>
        match orc.buildVectorstore splits with
        | .error m => .exn m
        | .ok _ =>
          match orc.chainInvoke (req.question.getD "") with
          | .error m => .exn m
          | .ok rawAnswer =>
            match rawAnswer with
            | .vdict fs => .normal (.vdict fs) (pyStrOf ((fs.lookup "result").getD (.vstr "")))
            | v => .boundExn v msgAttrErrorGet

/-- Normalization of the raw chain output at server.py lines 203-206: a
dict passes through, anything else is wrapped as a result dict around its
str() rendering. -/
def rawClean : PyVal → PyVal
  | .vdict fs => .vdict fs
  | v => .vdict [("result", .vstr (pyStrOf v))]

/-- The isinstance(parsed, (dict, list)) test at server.py line 232. -/
def isDictOrList : PyVal → Bool
  | .vdict _ => true
  | .vlist _ => true
  | _ => false

/-- The reformatting prompt built at server.py lines 217-222 by adjacent
f-string concatenation. -/
def structured_prompt (answerText fmt : String) : String :=
  " Reform the following into EXACT schema:" ++ "Answer:\n" ++ answerText ++
    "\n\nSchema:\n" ++ fmt ++ "\n\n"

/-- The finally block of handle_query. Everything from server.py line 193
to line 268 is indented inside the bare finally clause of the try opened at
line 148, so it runs on every exit of the try block. If the try block
exited before raw_answer was bound (early return or pipeline exception),
line 203 reads the unbound name and the resulting NameError replaces the
pending return value or in-flight exception, so the request produces no
JSON payload. Otherwise the block normalizes the raw answer, rejects a
missing structured parser with a 500, invokes the model on the
reformatting prompt, parses, type-checks and answers; any exception inside
the inner try (including the NameError on answer_text when the try block
died between lines 190 and 191) is caught at line 266 and returned as a
500 whose message is str(e). -/
def finallyBlock (caps : Caps) (orc : Oracles) : TryExit → Outcome
  | .earlyRet _ _ => .nameError msgNameErrorRaw
  | .exn _ => .nameError msgNameErrorRaw
  | .boundExn _ _ =>
    if !caps.structuredInit then .json 500 (.err msgNoStructured)
    else .json 500 (.err msgNameErrorAnswerText)
  | .normal rawAnswer answerText =>
    if !caps.structuredInit then .json 500 (.err msgNoStructured)
    else
      match orc.llmInvoke (structured_prompt answerText caps.formatInstructions) with
      | .error m => .json 500 (.err m)
      | .ok structuredOutput =>
        match orc.parseStructured structuredOutput with
        | .error m => .json 500 (.err m)
        | .ok parsed =>
          if !isDictOrList parsed then .json 500 (.err msgNotStructuredData)
          else .json 200 (.envelope (conciseOrEmpty parsed) (rawClean rawAnswer) parsed)

/-- Shallow embedding of the handle_query view, server.py lines 137-268:
the eager capability check at lines 143-144, then the try block and the
finally block that post-processes (or clobbers) its outcome. -/
def handle_query (caps : Caps) (orc : Oracles) (req : Req) : Outcome :=
  if !caps.llmInit || !caps.embeddingsInit then
    .json 500 (.err msgModelsNotInit)
  else
    finallyBlock caps orc (tryBlock orc req)

/-- Caps with every capability initialized (empty format instructions, as
when get_format_instructions is unavailable). -/
def capsOn : Caps := ⟨true, true, true, ""⟩

/-- Caps with llm and embeddings initialized but structured parsing
unavailable (the global set to None by the import fallback). -/
def capsNoStructured : Caps := ⟨true, true, false, ""⟩

/-- A raw chain output dict of the shape RetrievalQA returns. -/
def rawA : PyVal := .vdict [("result", .vstr "ans")]

/-- Oracles where every external call succeeds and the structured parse
yields a one-field answer dict. -/
def orcOk : Oracles :=
  ⟨fun _ => .ok ["doc"], fun ds => .ok ds, fun _ => .ok (), fun _ => .ok rawA,
   fun _ => .ok "out", fun _ => .ok (.vdict [("answer", .vstr "A")])⟩

/-- Oracles identical to orcOk except that the document load raises. -/
def orcFetchFails : Oracles :=
  ⟨fun _ => .error "FetchError", fun ds => .ok ds, fun _ => .ok (), fun _ => .ok rawA,
   fun _ => .ok "out", fun _ => .ok (.vdict [("answer", .vstr "A")])⟩

/-- Oracles identical to orcOk except that the structured parse yields a
list of bare strings: a sequence whose elements are not mappings. -/
def orcParseStrList : Oracles :=
  ⟨fun _ => .ok ["doc"], fun ds => .ok ds, fun _ => .ok (), fun _ => .ok rawA,
   fun _ => .ok "out", fun _ => .ok (.vlist [.vstr "a"])⟩

/-- Oracles identical to orcOk except that the structured parse yields an
empty dict. -/
def orcParseEmptyDict : Oracles :=
  ⟨fun _ => .ok ["doc"], fun ds => .ok ds, fun _ => .ok (), fun _ => .ok rawA,
   fun _ => .ok "out", fun _ => .ok (.vdict [])⟩

/-- A syntactically valid request. -/
def reqValid : Req := ⟨some "http://example.com", some "What are cats?"⟩

/-- A request whose body has no url key. -/
def reqNoUrl : Req := ⟨none, some "What are cats?"⟩

/-- Modelled from the spec: the Chunker contract of section 4.1. The
concrete splitter (RecursiveCharacterTextSplitter, configured with
chunk_size 2000 and chunk_overlap 200 at server.py lines 168-171) is
third-party library code not present under src/, so the sliding-window
splitter described by the spec is modelled here directly: each chunk takes
at most maxSize characters and the next chunk starts stride = maxSize -
overlap characters later. The fuel argument (instantiated with the text
length) only serves to make the recursion structural; it never runs out
when the stride is positive. -/
def chunkSplitAux (maxSize stride : Nat) : Nat → List Char → List (List Char)
  | 0, t => [t]
  | fuel + 1, t =>
    if t.length ≤ maxSize then [t]
    else t.take maxSize :: chunkSplitAux maxSize stride fuel (t.drop stride)

/-- Modelled from the spec: split a document text into chunks of at most
maxSize characters with the given overlap between neighbours; empty text
yields no chunks (section 4.1 failure clause). -/
def chunkSplit (text : List Char) (maxSize overlap : Nat) : List (List Char) :=
  if text.isEmpty then [] else chunkSplitAux maxSize (maxSize - overlap) text.length text

/-- Two consecutive chunks overlap by exactly n characters: the last n
characters of the first chunk are the first n characters of the second,
and that shared run really has length n. -/
def OverlapsBy (n : Nat) (a b : List Char) : Prop :=
  a.drop (a.length - n) = b.take n ∧ (b.take n).length = n

lemma chunkSplitAux_ne_nil (maxSize stride fuel : Nat) (t : List Char) :
    chunkSplitAux maxSize stride fuel t ≠ [] := by
  cases fuel with
  | zero => simp [chunkSplitAux]
  | succ n =>
    simp only [chunkSplitAux]
    split <;> simp

lemma chunkSplitAux_head_take (maxSize stride fuel : Nat) (overlap : Nat)
    (hov : overlap ≤ maxSize) (t : List Char) :
    ((chunkSplitAux maxSize stride fuel t).headI).take overlap = t.take overlap := by
  cases fuel with
  | zero => simp [chunkSplitAux]
  | succ n =>
    simp only [chunkSplitAux]
    split
    · simp
    · simp [List.take_take, Nat.min_eq_left hov]

lemma chunkSplitAux_length_le (maxSize stride : Nat) (hs : 1 ≤ stride) :
    ∀ (fuel : Nat) (t : List Char), t.length ≤ fuel →
      ∀ c ∈ chunkSplitAux maxSize stride fuel t, c.length ≤ maxSize := by
  intro fuel
  induction fuel with
  | zero =>
    intro t ht c hc
    simp only [chunkSplitAux, List.mem_singleton] at hc
    subst hc
    omega
  | succ n ih =>
    intro t ht c hc
    simp only [chunkSplitAux] at hc
    split at hc
    · simp only [List.mem_singleton] at hc
      subst hc
      omega
    · rename_i hlen
      simp only [List.mem_cons] at hc
      rcases hc with hc | hc
      · subst hc
        simp [List.length_take]
      · exact ih (t.drop stride) (by simp [List.length_drop]; omega) c hc

lemma chunkSplitAux_chain (maxSize stride overlap : Nat) (hs : 1 ≤ stride)
    (hst : stride = maxSize - overlap) (hov : overlap < maxSize) :
    ∀ (fuel : Nat) (t : List Char), t.length ≤ fuel →
      List.Chain' (OverlapsBy overlap) (chunkSplitAux maxSize stride fuel t) := by
  intro fuel
  induction fuel with
  | zero =>
    intro t ht
    simp [chunkSplitAux]
  | succ n ih =>
    intro t ht
    simp only [chunkSplitAux]
    split
    · simp
    · rename_i hlen
      push_neg at hlen
      have hrest : List.Chain' (OverlapsBy overlap) (chunkSplitAux maxSize stride n (t.drop stride)) :=
        ih (t.drop stride) (by simp [List.length_drop]; omega)
      refine List.chain'_cons'.mpr ⟨?_, hrest⟩
      intro y hy
      have hne := chunkSplitAux_ne_nil maxSize stride n (t.drop stride)
      have hhead : y = (chunkSplitAux maxSize stride n (t.drop stride)).headI := by
        cases hrec : chunkSplitAux maxSize stride n (t.drop stride) with
        | nil => exact absurd hrec hne
        | cons a l =>
          rw [hrec] at hy
          simp at hy
          simp [hy]
      have hytake : y.take overlap = (t.drop stride).take overlap := by
        rw [hhead]
        exact chunkSplitAux_head_take maxSize stride n overlap (le_of_lt hov) (t.drop stride)
      constructor
      · have hlt : (t.take maxSize).length = maxSize := by
          simp [List.length_take]; omega
        rw [hlt, hytake, hst]
        rw [List.drop_take]
        congr 1
        omega
      · rw [hytake]
        simp [List.length_take, List.length_drop]
        omega

/-- Dot product of two rational vectors (trailing entries of the longer
vector are ignored, matching componentwise products over the shared
prefix). -/
def dotQ : List ℚ → List ℚ → ℚ
  | [], _ => 0
  | _ :: _, [] => 0
  | x :: xs, y :: ys => x * y + dotQ xs ys

def sqNorm (v : List ℚ) : ℚ := dotQ v v

lemma sqNorm_nonneg (v : List ℚ) : 0 ≤ sqNorm v := by
  unfold sqNorm
  induction v with
  | nil => simp [dotQ]
  | cons x xs ih =>
    simp only [dotQ]
    nlinarith [mul_self_nonneg x]

lemma sqNorm_eq_zero_entries (q : List ℚ) (h : sqNorm q = 0) : ∀ x ∈ q, x = 0 := by
  induction q with
  | nil => simp
  | cons y ys ih =>
    unfold sqNorm at h ih
    simp only [dotQ] at h
    have h1 : 0 ≤ dotQ ys ys := sqNorm_nonneg ys
    have h2 : 0 ≤ y * y := mul_self_nonneg y
    have hy : y = 0 := by nlinarith
    have hys : dotQ ys ys = 0 := by nlinarith
    intro x hx
    rcases List.mem_cons.mp hx with hx | hx
    · rw [hx, hy]
    · exact ih hys x hx

lemma dotQ_zero_right (v q : List ℚ) (h : ∀ x ∈ q, x = 0) : dotQ v q = 0 := by
  induction v generalizing q with
  | nil => simp [dotQ]
  | cons x xs ih =>
    cases q with
    | nil => simp [dotQ]
    | cons y ys =>
      have hy : y = 0 := h y (by simp)
      simp only [dotQ, hy, mul_zero, zero_add]
      exact ih ys (fun z hz => h z (by simp [hz]))

/-- Modelled from the spec: decide whether a / sqrt A is at most b / sqrt B
for positive squared norms A and B, using only rational arithmetic (sign
analysis plus comparison of squares). -/
def cosLe (a A b B : ℚ) : Bool :=
  if a < 0 then
    (if b < 0 then decide (b * b * A ≤ a * a * B) else true)
  else
    (if b < 0 then false else decide (a * a * B ≤ b * b * A))

lemma sq_le_sq_iff_nonneg {x y : ℝ} (hx : 0 ≤ x) (hy : 0 ≤ y) :
    x ≤ y ↔ x ^ 2 ≤ y ^ 2 := by
  constructor
  · intro h
    exact pow_le_pow_left₀ hx h 2
  · intro h
    exact le_of_pow_le_pow_left₀ (by norm_num) hy h

lemma cosLe_iff (a b A B : ℚ) (hA : 0 < A) (hB : 0 < B) :
    cosLe a A b B = true ↔
      (a : ℝ) / Real.sqrt ((A : ℚ) : ℝ) ≤ (b : ℝ) / Real.sqrt ((B : ℚ) : ℝ) := by
  have hAr : (0 : ℝ) < (A : ℝ) := by exact_mod_cast hA
  have hBr : (0 : ℝ) < (B : ℝ) := by exact_mod_cast hB
  have hsA : (0 : ℝ) < Real.sqrt (A : ℝ) := Real.sqrt_pos.mpr hAr
  have hsB : (0 : ℝ) < Real.sqrt (B : ℝ) := Real.sqrt_pos.mpr hBr
  have hsA2 : Real.sqrt ((A : ℚ) : ℝ) ^ 2 = (A : ℝ) := Real.sq_sqrt (le_of_lt hAr)
  have hsB2 : Real.sqrt ((B : ℚ) : ℝ) ^ 2 = (B : ℝ) := Real.sq_sqrt (le_of_lt hBr)
  rw [div_le_div_iff₀ hsA hsB]
  unfold cosLe
  by_cases ha : a < 0
  · by_cases hb : b < 0
    · simp only [ha, hb, if_true, decide_eq_true_eq]
      have har : (a : ℝ) < 0 := by exact_mod_cast ha
      have hbr : (b : ℝ) < 0 := by exact_mod_cast hb
      have h1 : (0 : ℝ) ≤ -(b * Real.sqrt (A : ℝ)) := by nlinarith
      have h2 : (0 : ℝ) ≤ -(a * Real.sqrt (B : ℝ)) := by nlinarith
      have key : (-(b * Real.sqrt ((A : ℚ) : ℝ)) ≤ -(a * Real.sqrt ((B : ℚ) : ℝ))) ↔
          (-(b * Real.sqrt ((A : ℚ) : ℝ))) ^ 2 ≤ (-(a * Real.sqrt ((B : ℚ) : ℝ))) ^ 2 :=
        sq_le_sq_iff_nonneg h1 h2
      constructor
      · intro h
        have hq : (b : ℝ) * b * A ≤ (a : ℝ) * a * B := by exact_mod_cast h
        have := key.mpr (by
          have e1 : (-(b * Real.sqrt ((A : ℚ) : ℝ))) ^ 2 = (b : ℝ) * b * A := by
            rw [neg_pow, mul_pow, hsA2]; ring
          have e2 : (-(a * Real.sqrt ((B : ℚ) : ℝ))) ^ 2 = (a : ℝ) * a * B := by
            rw [neg_pow, mul_pow, hsB2]; ring
          rw [e1, e2]; exact hq)
        linarith
      · intro h
        have h' := key.mp (by linarith)
        have e1 : (-(b * Real.sqrt ((A : ℚ) : ℝ))) ^ 2 = (b : ℝ) * b * A := by
          rw [neg_pow, mul_pow, hsA2]; ring
        have e2 : (-(a * Real.sqrt ((B : ℚ) : ℝ))) ^ 2 = (a : ℝ) * a * B := by
          rw [neg_pow, mul_pow, hsB2]; ring
        rw [e1, e2] at h'
        exact_mod_cast h'
    · simp only [ha, hb, if_true, if_false]
      have har : (a : ℝ) < 0 := by exact_mod_cast ha
      have hbr : (0 : ℝ) ≤ (b : ℝ) := by exact_mod_cast not_lt.mp hb
      constructor
      · intro _
        nlinarith
      · intro _
        trivial
  · by_cases hb : b < 0
    · simp only [ha, hb, if_false, if_true]
      have har : (0 : ℝ) ≤ (a : ℝ) := by exact_mod_cast not_lt.mp ha
      have hbr : (b : ℝ) < 0 := by exact_mod_cast hb
      constructor
      · intro h
        exact absurd h (by simp)
      · intro h
        nlinarith
    · simp only [ha, hb, if_false, decide_eq_true_eq]
      have har : (0 : ℝ) ≤ (a : ℝ) := by exact_mod_cast not_lt.mp ha
      have hbr : (0 : ℝ) ≤ (b : ℝ) := by exact_mod_cast not_lt.mp hb
      have h1 : (0 : ℝ) ≤ a * Real.sqrt ((B : ℚ) : ℝ) := by positivity
      have h2 : (0 : ℝ) ≤ b * Real.sqrt ((A : ℚ) : ℝ) := by positivity
      have key : (a * Real.sqrt ((B : ℚ) : ℝ) ≤ b * Real.sqrt ((A : ℚ) : ℝ)) ↔
          (a * Real.sqrt ((B : ℚ) : ℝ)) ^ 2 ≤ (b * Real.sqrt ((A : ℚ) : ℝ)) ^ 2 :=
        sq_le_sq_iff_nonneg h1 h2
      have e1 : ((a : ℝ) * Real.sqrt ((B : ℚ) : ℝ)) ^ 2 = (a : ℝ) * a * B := by
        rw [mul_pow, hsB2]; ring
      have e2 : ((b : ℝ) * Real.sqrt ((A : ℚ) : ℝ)) ^ 2 = (b : ℝ) * b * A := by
        rw [mul_pow, hsA2]; ring
      rw [key, e1, e2]
      constructor
      · intro h
        exact_mod_cast h
      · intro h
        exact_mod_cast h

/-- Modelled from the spec: comparator on cosine keys (dot product with the
query, squared norm of the chunk vector), treating a zero-norm vector as
having cosine similarity zero, matching the real-number convention that
division by zero yields zero. -/
def cosKeyLe (a A b B : ℚ) : Bool :=
  cosLe (if A ≤ 0 then 0 else a) (if A ≤ 0 then 1 else A)
    (if B ≤ 0 then 0 else b) (if B ≤ 0 then 1 else B)

lemma cosKeyLe_iff (a b A B : ℚ) (hA : 0 ≤ A) (hB : 0 ≤ B) :
    cosKeyLe a A b B = true ↔
      (a : ℝ) / Real.sqrt ((A : ℚ) : ℝ) ≤ (b : ℝ) / Real.sqrt ((B : ℚ) : ℝ) := by
  unfold cosKeyLe
  rcases eq_or_lt_of_le hA with h0A | hposA
  · rcases eq_or_lt_of_le hB with h0B | hposB
    · rw [if_pos (le_of_eq h0A.symm), if_pos (le_of_eq h0A.symm),
        if_pos (le_of_eq h0B.symm), if_pos (le_of_eq h0B.symm)]
      rw [cosLe_iff 0 0 1 1 one_pos one_pos]
      rw [← h0A, ← h0B]
      simp
    · rw [if_pos (le_of_eq h0A.symm), if_pos (le_of_eq h0A.symm),
        if_neg (not_le.mpr hposB), if_neg (not_le.mpr hposB)]
      rw [cosLe_iff 0 b 1 B one_pos hposB]
      rw [← h0A]
      simp
  · rcases eq_or_lt_of_le hB with h0B | hposB
    · rw [if_neg (not_le.mpr hposA), if_neg (not_le.mpr hposA),
        if_pos (le_of_eq h0B.symm), if_pos (le_of_eq h0B.symm)]
      rw [cosLe_iff a 0 A 1 hposA one_pos]
      rw [← h0B]
      simp
    · rw [if_neg (not_le.mpr hposA), if_neg (not_le.mpr hposA),
        if_neg (not_le.mpr hposB), if_neg (not_le.mpr hposB)]
      exact cosLe_iff a b A B hposA hposB

/-- Modelled from the spec: the cosine similarity of a chunk vector and a
query vector on raw vectors (real-valued; by the division convention a
zero vector has similarity zero to everything). -/
noncomputable def cosineSim (v q : List ℚ) : ℝ :=
  (dotQ v q : ℝ) / (Real.sqrt ((sqNorm v : ℚ) : ℝ) * Real.sqrt ((sqNorm q : ℚ) : ℝ))

/-- Modelled from the spec: ranking comparator on chunk indices for one
query: strictly higher cosine similarity ranks first, and equal similarity
is broken by the original chunk order (smaller index first). -/
def chunkRankLe (vecs : List (List ℚ)) (qv : List ℚ) (i j : Nat) : Bool :=
  let ci := cosKeyLe (dotQ (vecs.getD i []) qv) (sqNorm (vecs.getD i []))
    (dotQ (vecs.getD j []) qv) (sqNorm (vecs.getD j []))
  let cj := cosKeyLe (dotQ (vecs.getD j []) qv) (sqNorm (vecs.getD j []))
    (dotQ (vecs.getD i []) qv) (sqNorm (vecs.getD i []))
  if ci && cj then decide (i ≤ j) else cj

lemma cosineSim_eq_div (v q : List ℚ) :
    cosineSim v q =
      ((dotQ v q : ℝ) / Real.sqrt ((sqNorm v : ℚ) : ℝ)) / Real.sqrt ((sqNorm q : ℚ) : ℝ) := by
  rw [cosineSim, div_div]

lemma chunkRankLe_iff (vecs : List (List ℚ)) (qv : List ℚ) (i j : Nat) :
    chunkRankLe vecs qv i j = true ↔
      (cosineSim (vecs.getD j []) qv < cosineSim (vecs.getD i []) qv ∨
        (cosineSim (vecs.getD i []) qv = cosineSim (vecs.getD j []) qv ∧ i ≤ j)) := by
  have hci := cosKeyLe_iff (dotQ (vecs.getD i []) qv) (dotQ (vecs.getD j []) qv)
    (sqNorm (vecs.getD i [])) (sqNorm (vecs.getD j []))
    (sqNorm_nonneg _) (sqNorm_nonneg _)
  have hcj := cosKeyLe_iff (dotQ (vecs.getD j []) qv) (dotQ (vecs.getD i []) qv)
    (sqNorm (vecs.getD j [])) (sqNorm (vecs.getD i []))
    (sqNorm_nonneg _) (sqNorm_nonneg _)
  set ri : ℝ := (dotQ (vecs.getD i []) qv : ℝ) / Real.sqrt ((sqNorm (vecs.getD i []) : ℚ) : ℝ) with hri
  set rj : ℝ := (dotQ (vecs.getD j []) qv : ℝ) / Real.sqrt ((sqNorm (vecs.getD j []) : ℚ) : ℝ) with hrj
  have hQ : 0 ≤ sqNorm qv := sqNorm_nonneg qv
  have hcosi : cosineSim (vecs.getD i []) qv = ri / Real.sqrt ((sqNorm qv : ℚ) : ℝ) :=
    cosineSim_eq_div _ _
  have hcosj : cosineSim (vecs.getD j []) qv = rj / Real.sqrt ((sqNorm qv : ℚ) : ℝ) :=
    cosineSim_eq_div _ _
  rcases eq_or_lt_of_le hQ with h0Q | hposQ
  · -- zero query vector: all dot products vanish, all similarities are 0
    have hzero : ∀ x ∈ qv, x = 0 := sqNorm_eq_zero_entries qv h0Q.symm
    have hdi : dotQ (vecs.getD i []) qv = 0 := dotQ_zero_right _ _ hzero
    have hdj : dotQ (vecs.getD j []) qv = 0 := dotQ_zero_right _ _ hzero
    have hrieq : ri = 0 := by rw [hri, hdi]; simp
    have hrjeq : rj = 0 := by rw [hrj, hdj]; simp
    have hceq : cosineSim (vecs.getD i []) qv = cosineSim (vecs.getD j []) qv := by
      rw [hcosi, hcosj, hrieq, hrjeq]
    have hcit : cosKeyLe (dotQ (vecs.getD i []) qv) (sqNorm (vecs.getD i []))
        (dotQ (vecs.getD j []) qv) (sqNorm (vecs.getD j [])) = true := by
      rw [hci, hrieq, hrjeq]
    have hcjt : cosKeyLe (dotQ (vecs.getD j []) qv) (sqNorm (vecs.getD j []))
        (dotQ (vecs.getD i []) qv) (sqNorm (vecs.getD i [])) = true := by
      rw [hcj, hrjeq, hrieq]
    simp only [chunkRankLe, hcit, hcjt, Bool.and_self, if_true, decide_eq_true_eq]
    constructor
    · intro h
      exact Or.inr ⟨hceq, h⟩
    · intro h
      rcases h with h | h
      · rw [hceq] at h
        exact absurd h (lt_irrefl _)
      · exact h.2
  · -- positive query norm: dividing by the positive common factor preserves order
    have hsQ : 0 < Real.sqrt ((sqNorm qv : ℚ) : ℝ) :=
      Real.sqrt_pos.mpr (by exact_mod_cast hposQ)
    have hord : ∀ x y : ℝ, x / Real.sqrt ((sqNorm qv : ℚ) : ℝ) ≤ y / Real.sqrt ((sqNorm qv : ℚ) : ℝ) ↔ x ≤ y :=
      fun x y => div_le_div_iff_of_pos_right hsQ
    have hcieq : (cosKeyLe (dotQ (vecs.getD i []) qv) (sqNorm (vecs.getD i []))
        (dotQ (vecs.getD j []) qv) (sqNorm (vecs.getD j [])) = true) ↔
        cosineSim (vecs.getD i []) qv ≤ cosineSim (vecs.getD j []) qv := by
      rw [hci, hcosi, hcosj, hord]
    have hcjeq : (cosKeyLe (dotQ (vecs.getD j []) qv) (sqNorm (vecs.getD j []))
        (dotQ (vecs.getD i []) qv) (sqNorm (vecs.getD i [])) = true) ↔
        cosineSim (vecs.getD j []) qv ≤ cosineSim (vecs.getD i []) qv := by
      rw [hcj, hcosi, hcosj, hord]
    by_cases hc1 : cosKeyLe (dotQ (vecs.getD i []) qv) (sqNorm (vecs.getD i []))
        (dotQ (vecs.getD j []) qv) (sqNorm (vecs.getD j [])) = true
    · by_cases hc2 : cosKeyLe (dotQ (vecs.getD j []) qv) (sqNorm (vecs.getD j []))
          (dotQ (vecs.getD i []) qv) (sqNorm (vecs.getD i [])) = true
      · simp only [chunkRankLe, hc1, hc2, Bool.and_self, if_true, decide_eq_true_eq]
        have heq : cosineSim (vecs.getD i []) qv = cosineSim (vecs.getD j []) qv :=
          le_antisymm (hcieq.mp hc1) (hcjeq.mp hc2)
        constructor
        · intro h
          exact Or.inr ⟨heq, h⟩
        · intro h
          rcases h with h | h
          · rw [heq] at h
            exact absurd h (lt_irrefl _)
          · exact h.2
      · have hc2f : cosKeyLe (dotQ (vecs.getD j []) qv) (sqNorm (vecs.getD j []))
            (dotQ (vecs.getD i []) qv) (sqNorm (vecs.getD i [])) = false :=
          Bool.eq_false_iff.mpr hc2
        simp only [chunkRankLe, hc1, hc2f, Bool.and_false, Bool.false_eq_true, if_false]
        constructor
        · intro h
          exact absurd h (by simp)
        · intro h
          rcases h with h | h
          · exact absurd (hcieq.mp hc1) (not_le.mpr h)
          · exact absurd (hcjeq.mpr (le_of_eq h.1.symm)) hc2
    · have hc1f : cosKeyLe (dotQ (vecs.getD i []) qv) (sqNorm (vecs.getD i []))
          (dotQ (vecs.getD j []) qv) (sqNorm (vecs.getD j [])) = false :=
        Bool.eq_false_iff.mpr hc1
      have hlt : cosineSim (vecs.getD j []) qv < cosineSim (vecs.getD i []) qv :=
        not_le.mp (fun h => hc1 (hcieq.mpr h))
      have hc2 : cosKeyLe (dotQ (vecs.getD j []) qv) (sqNorm (vecs.getD j []))
          (dotQ (vecs.getD i []) qv) (sqNorm (vecs.getD i [])) = true :=
        hcjeq.mpr (le_of_lt hlt)
      simp only [chunkRankLe, hc1f, hc2, Bool.false_and, Bool.false_eq_true, if_false]
      constructor
      · intro _
        exact Or.inl hlt
      · intro _
        trivial

/-- The ranking relation on chunk indices as a proposition, for use with
the sorting algorithm. -/
def chunkRank (vecs : List (List ℚ)) (qv : List ℚ) (i j : Nat) : Prop :=
  chunkRankLe vecs qv i j = true

instance chunkRankDecidable (vecs : List (List ℚ)) (qv : List ℚ) :
    DecidableRel (chunkRank vecs qv) := fun i j => by
  unfold chunkRank
  infer_instance

/-- Modelled from the spec: the retrieval step of the ephemeral index
(FAISS plus its retriever are third-party library code not present under
src/). Chunk indices are sorted by descending cosine similarity to the
query vector with ties broken by original chunk order, and the first k are
returned. -/
def retrieveTopK (vecs : List (List ℚ)) (qv : List ℚ) (k : Nat) : List Nat :=
  (List.insertionSort (chunkRank vecs qv) (List.range vecs.length)).take k

lemma chunkRankLe_trans (vecs : List (List ℚ)) (qv : List ℚ) :
    ∀ a b c, chunkRankLe vecs qv a b = true → chunkRankLe vecs qv b c = true →
      chunkRankLe vecs qv a c = true := by
  intro a b c hab hbc
  rw [chunkRankLe_iff] at hab hbc ⊢
  rcases hab with h1 | h1 <;> rcases hbc with h2 | h2
  · exact Or.inl (lt_trans h2 h1)
  · exact Or.inl (h2.1 ▸ h1)
  · exact Or.inl (lt_of_lt_of_le h2 (le_of_eq h1.1.symm))
  · exact Or.inr ⟨h1.1.trans h2.1, le_trans h1.2 h2.2⟩

lemma chunkRankLe_total (vecs : List (List ℚ)) (qv : List ℚ) :
    ∀ a b, (chunkRankLe vecs qv a b || chunkRankLe vecs qv b a) = true := by
  intro a b
  rw [Bool.or_eq_true, chunkRankLe_iff, chunkRankLe_iff]
  rcases lt_trichotomy (cosineSim (vecs.getD a []) qv) (cosineSim (vecs.getD b []) qv) with h | h | h
  · exact Or.inr (Or.inl h)
  · rcases Nat.le_total a b with hab | hab
    · exact Or.inl (Or.inr ⟨h, hab⟩)
    · exact Or.inr (Or.inr ⟨h.symm, hab⟩)
  · exact Or.inl (Or.inl h)

lemma chunkRank_isTotal (vecs : List (List ℚ)) (qv : List ℚ) :
    IsTotal Nat (chunkRank vecs qv) := by
  constructor
  intro a b
  have h := chunkRankLe_total vecs qv a b
  rw [Bool.or_eq_true] at h
  exact h

lemma chunkRank_isTrans (vecs : List (List ℚ)) (qv : List ℚ) :
    IsTrans Nat (chunkRank vecs qv) := by
  constructor
  intro a b c hab hbc
  exact chunkRankLe_trans vecs qv a b c hab hbc

lemma chunkRank_sorted (vecs : List (List ℚ)) (qv : List ℚ) :
    List.Pairwise (chunkRank vecs qv)
      (List.insertionSort (chunkRank vecs qv) (List.range vecs.length)) :=
  @List.sorted_insertionSort Nat (chunkRank vecs qv) (chunkRankDecidable vecs qv)
    (chunkRank_isTotal vecs qv) (chunkRank_isTrans vecs qv) (List.range vecs.length)

lemma retrieveTopK_length (vecs : List (List ℚ)) (qv : List ℚ) (k : Nat) :
    (retrieveTopK vecs qv k).length = min k vecs.length := by
  rw [retrieveTopK, List.length_take,
    (List.perm_insertionSort (chunkRank vecs qv) (List.range vecs.length)).length_eq,
    List.length_range]

lemma retrieveTopK_mem_lt (vecs : List (List ℚ)) (qv : List ℚ) (k : Nat) :
    ∀ i ∈ retrieveTopK vecs qv k, i < vecs.length := by
  intro i hi
  have h1 : i ∈ List.insertionSort (chunkRank vecs qv) (List.range vecs.length) :=
    List.take_subset k _ hi
  have h2 : i ∈ List.range vecs.length :=
    (List.perm_insertionSort (chunkRank vecs qv) (List.range vecs.length)).mem_iff.mp h1
  exact List.mem_range.mp h2

lemma retrieveTopK_topk (vecs : List (List ℚ)) (qv : List ℚ) (k : Nat) :
    ∀ i ∈ retrieveTopK vecs qv k, ∀ j, j < vecs.length → j ∉ retrieveTopK vecs qv k →
      cosineSim (vecs.getD j []) qv ≤ cosineSim (vecs.getD i []) qv := by
  intro i hi j hj hjn
  have hpw := chunkRank_sorted vecs qv
  have hsplit : List.insertionSort (chunkRank vecs qv) (List.range vecs.length) =
      (List.insertionSort (chunkRank vecs qv) (List.range vecs.length)).take k ++
      (List.insertionSort (chunkRank vecs qv) (List.range vecs.length)).drop k :=
    (List.take_append_drop k _).symm
  have hjmem : j ∈ List.insertionSort (chunkRank vecs qv) (List.range vecs.length) :=
    (List.perm_insertionSort (chunkRank vecs qv) (List.range vecs.length)).mem_iff.mpr
      (List.mem_range.mpr hj)
  rw [hsplit] at hjmem
  have hjdrop : j ∈ (List.insertionSort (chunkRank vecs qv) (List.range vecs.length)).drop k := by
    rcases List.mem_append.mp hjmem with h | h
    · exact absurd h hjn
    · exact h
  rw [hsplit] at hpw
  have hle : chunkRank vecs qv i j :=
    (List.pairwise_append.mp hpw).2.2 i hi j hjdrop
  rcases (chunkRankLe_iff vecs qv i j).mp hle with h | h
  · exact le_of_lt h
  · exact le_of_eq h.1.symm

lemma retrieveTopK_sorted (vecs : List (List ℚ)) (qv : List ℚ) (k : Nat) :
    List.Pairwise (fun i j =>
      cosineSim (vecs.getD j []) qv < cosineSim (vecs.getD i []) qv ∨
        (cosineSim (vecs.getD i []) qv = cosineSim (vecs.getD j []) qv ∧ i < j))
      (retrieveTopK vecs qv k) := by
  have hpw := chunkRank_sorted vecs qv
  have hnd : (List.insertionSort (chunkRank vecs qv) (List.range vecs.length)).Nodup :=
    (List.perm_insertionSort (chunkRank vecs qv) (List.range vecs.length)).nodup_iff.mpr
      (List.nodup_range vecs.length)
  have hpwtake : List.Pairwise (chunkRank vecs qv) (retrieveTopK vecs qv k) :=
    List.Pairwise.sublist (List.take_sublist k _) hpw
  have hndtake : (retrieveTopK vecs qv k).Nodup :=
    List.Nodup.sublist (List.take_sublist k _) hnd
  have hcomb := hpwtake.and hndtake
  refine hcomb.imp ?_
  intro a b hab
  rcases (chunkRankLe_iff vecs qv a b).mp hab.1 with h | h
  · exact Or.inl h
  · exact Or.inr ⟨h.1, lt_of_le_of_ne h.2 hab.2⟩

/-- C1: the claim that a request arriving while the structured parser is
unavailable fails immediately with the configuration error before any
fetch, chunk or embed work is attempted is false of the code: the
structured-parser check sits inside the finally block, after the whole
pipeline. Concretely, with the parser unavailable and the document fetch
raising, the request does not end in the configuration error at all: the
finally block reads the unbound raw_answer name and the request dies with
an uncaught NameError. -/
theorem C1_counterexample :
    handle_query capsNoStructured orcFetchFails reqValid = .nameError msgNameErrorRaw ∧
    handle_query capsNoStructured orcFetchFails reqValid ≠
      .json 500 (.err msgNoStructured) := by
  refine ⟨rfl, ?_⟩
  intro h
  exact Outcome.noConfusion
    ((show handle_query capsNoStructured orcFetchFails reqValid =
      .nameError msgNameErrorRaw from rfl).symm.trans h)

/-- C1 (amended): when the structured parser is unavailable but llm and
embeddings are initialized, a request whose try block completes normally -
that is, only after document fetch, splitting, vector store construction
and chain invocation have all succeeded - fails with the 500
StructuredOutputParser configuration error; the check happens after the
pipeline work, not before it. -/
theorem C1_amended_thm (orc : Oracles) (req : Req) (fmt : String) (raw : PyVal)
    (atext : String) (h : tryBlock orc req = .normal raw atext) :
    handle_query ⟨true, true, false, fmt⟩ orc req = .json 500 (.err msgNoStructured) := by
  simp [handle_query, h, finallyBlock]

/-- C1 witness: the amended theorem applied to the all-success oracles and
a valid request. -/
theorem C1_amended_witness :
    tryBlock orcOk reqValid = .normal rawA "ans" ∧
    handle_query ⟨true, true, false, ""⟩ orcOk reqValid = .json 500 (.err msgNoStructured) :=
  ⟨rfl, C1_amended_thm orcOk reqValid "" rawA "ans" rfl⟩

/-- C2: whenever the try block of handle_query exits before raw_answer is
bound - by the early 400 return for a missing url or question, or by an
exception from document loading, splitting, vector-store construction or
chain invocation - the finally block still runs, reads the unbound
raw_answer name, and the whole view ends in an uncaught NameError with no
JSON payload. -/
theorem C2_thm (caps : Caps) (orc : Oracles) (req : Req)
    (hl : caps.llmInit = true) (he : caps.embeddingsInit = true)
    (h : (∃ st b, tryBlock orc req = .earlyRet st b) ∨ (∃ m, tryBlock orc req = .exn m)) :
    handle_query caps orc req = .nameError msgNameErrorRaw := by
  rcases h with ⟨st, b, h⟩ | ⟨m, h⟩ <;>
    simp [handle_query, hl, he, h, finallyBlock]

/-- C2 witness: the theorem applied to a request missing its url. -/
theorem C2_witness :
    capsOn.llmInit = true ∧ capsOn.embeddingsInit = true ∧
    tryBlock orcOk reqNoUrl = .earlyRet 400 (.err msgMissing) ∧
    handle_query capsOn orcOk reqNoUrl = .nameError msgNameErrorRaw :=
  ⟨rfl, rfl, rfl,
    C2_thm capsOn orcOk reqNoUrl rfl rfl (Or.inl ⟨400, .err msgMissing, rfl⟩)⟩

/-- C3: on a request missing its url the try block does initiate the
documented 400 InputError return, but because the rest of the view is
indented inside the finally block, that block runs during the return,
reads the unbound raw_answer name, and the pending 400 response is
discarded in favour of an uncaught NameError: the caller never receives
the 400 JSON body the code (and spec) intend. -/
theorem C3_code_bug_eval :
    tryBlock orcOk reqNoUrl = .earlyRet 400 (.err msgMissing) ∧
    handle_query capsOn orcOk reqNoUrl = .nameError msgNameErrorRaw :=
  ⟨rfl, rfl⟩

/-- C9: whenever the llm handle or the embeddings handle is None, every
request is answered immediately with the 500 initialization error - the
outcome is the same JSON error for every request body and every possible
behaviour of the pipeline collaborators, showing no per-request pipeline
work can influence it, and it is a returned response, not a crash. -/
theorem C9_thm (caps : Caps) (orc : Oracles) (req : Req)
    (h : caps.llmInit = false ∨ caps.embeddingsInit = false) :
    handle_query caps orc req = .json 500 (.err msgModelsNotInit) := by
  rcases h with h | h <;> simp [handle_query, h]

/-- C9 witness: the theorem applied with an uninitialized embeddings
handle. -/
theorem C9_witness :
    (Caps.mk true false true "").embeddingsInit = false ∧
    handle_query ⟨true, false, true, ""⟩ orcOk reqValid = .json 500 (.err msgModelsNotInit) :=
  ⟨rfl, C9_thm ⟨true, false, true, ""⟩ orcOk reqValid (Or.inr rfl)⟩

/-- C4: _concise_from_structured follows the stated priority. For a dict:
a truthy answer field wins (stripped str of its value); else a truthy
summary field; else a truthy title/heading combined with the first element
of a truthy sections/bullets/body; else the space-joined serialization of
all truthy values truncated to 2000 characters. For a top-level list: the
space-join of the first five truthy elements. In particular the three
example inputs of the spec produce exactly the stated summaries, including
the list that joins only five of its six elements. -/
theorem C4_thm :
    (∀ fs v, getTruthy fs "answer" = some v →
      _concise_from_structured (.vdict fs) = some (pyStrip (pyStrOf v))) ∧
    (∀ fs v, getTruthy fs "answer" = none → getTruthy fs "summary" = some v →
      _concise_from_structured (.vdict fs) = some (pyStrip (pyStrOf v))) ∧
    (∀ fs, getTruthy fs "answer" = none → getTruthy fs "summary" = none →
      optTruthy (titleVal fs) = true → optTruthy (sectionsVal fs) = true →
      _concise_from_structured (.vdict fs) =
        some (pyStrOf ((titleVal fs).getD .vnone) ++ ": " ++
          pyStrOf (firstOf ((sectionsVal fs).getD .vnone)))) ∧
    (∀ fs, getTruthy fs "answer" = none → getTruthy fs "summary" = none →
      (optTruthy (titleVal fs) && optTruthy (sectionsVal fs)) = false →
      _concise_from_structured (.vdict fs) =
        some (pyTake (String.intercalate " "
          (((fs.map Prod.snd).filter truthy).map serializeVal)) 2000)) ∧
    (∀ xs, _concise_from_structured (.vlist xs) =
      some (String.intercalate " " (((xs.filter truthy).map pyStrOf).take 5))) ∧
    _concise_from_structured (.vdict [("answer", .vstr "Paris is the capital.")]) =
      some "Paris is the capital." ∧
    _concise_from_structured (.vdict [("title", .vstr "Overview"),
      ("sections", .vlist [.vstr "Intro", .vstr "Details"])]) = some "Overview: Intro" ∧
    _concise_from_structured
      (.vlist [.vstr "a", .vstr "b", .vstr "c", .vstr "d", .vstr "e", .vstr "f"]) =
      some "a b c d e" := by
  refine ⟨?_, ?_, ?_, ?_, ?_, by rfl, by rfl, by rfl⟩
  · intro fs v h
    simp [_concise_from_structured, h]
  · intro fs v h1 h2
    simp [_concise_from_structured, h1, h2]
  · intro fs h1 h2 h3 h4
    simp [_concise_from_structured, h1, h2, h3, h4]
  · intro fs h1 h2 h3
    simp [_concise_from_structured, h1, h2, h3]
  · intro xs
    rfl

/-- C4 witness: the answer-field branch of the theorem applied to the
first example input. -/
theorem C4_witness :
    getTruthy [("answer", PyVal.vstr "Paris is the capital.")] "answer" =
      some (.vstr "Paris is the capital.") ∧
    _concise_from_structured (.vdict [("answer", .vstr "Paris is the capital.")]) =
      some (pyStrip (pyStrOf (.vstr "Paris is the capital."))) :=
  ⟨rfl, C4_thm.1 [("answer", .vstr "Paris is the capital.")]
    (.vstr "Paris is the capital.") rfl⟩

lemma handle_query_cases (caps : Caps) (orc : Oracles) (req : Req) :
    (∃ m, handle_query caps orc req = .nameError m) ∨
    (∃ m st, handle_query caps orc req = .json st (.err m) ∧ st ≠ 200) ∨
    (∃ raw parsed, handle_query caps orc req =
      .json 200 (.envelope (conciseOrEmpty parsed) (rawClean raw) parsed) ∧
      isDictOrList parsed = true) := by
  unfold handle_query
  split
  · exact Or.inr (Or.inl ⟨msgModelsNotInit, 500, rfl, by omega⟩)
  · cases htry : tryBlock orc req with
    | earlyRet st b =>
      exact Or.inl ⟨msgNameErrorRaw, by simp [finallyBlock]⟩
    | exn m =>
      exact Or.inl ⟨msgNameErrorRaw, by simp [finallyBlock]⟩
    | boundExn raw m =>
      by_cases hs : caps.structuredInit = true
      · exact Or.inr (Or.inl ⟨msgNameErrorAnswerText, 500, by simp [finallyBlock, hs], by omega⟩)
      · have hs' : caps.structuredInit = false := Bool.eq_false_iff.mpr hs
        exact Or.inr (Or.inl ⟨msgNoStructured, 500, by simp [finallyBlock, hs'], by omega⟩)
    | normal raw atext =>
      by_cases hs : caps.structuredInit = true
      · cases hllm : orc.llmInvoke (structured_prompt atext caps.formatInstructions) with
        | error m =>
          exact Or.inr (Or.inl ⟨m, 500, by simp [finallyBlock, hs, hllm], by omega⟩)
        | ok sout =>
          cases hparse : orc.parseStructured sout with
          | error m =>
            exact Or.inr (Or.inl ⟨m, 500, by simp [finallyBlock, hs, hllm, hparse], by omega⟩)
          | ok parsed =>
            by_cases hd : isDictOrList parsed = true
            · exact Or.inr (Or.inr ⟨raw, parsed,
                by simp [finallyBlock, hs, hllm, hparse, hd], hd⟩)
            · have hd' : isDictOrList parsed = false := Bool.eq_false_iff.mpr hd
              exact Or.inr (Or.inl ⟨msgNotStructuredData, 500,
                by simp [finallyBlock, hs, hllm, hparse, hd'], by omega⟩)
      · have hs' : caps.structuredInit = false := Bool.eq_false_iff.mpr hs
        exact Or.inr (Or.inl ⟨msgNoStructured, 500, by simp [finallyBlock, hs'], by omega⟩)

/-- C5: every successful (status 200) response body is the three-field
envelope whose answer is the concise summary derived from its structured
field and whose raw field is the normalized chain output (a bare string
result is wrapped as a one-field result dict by rawClean); every response
with any other status carries an error body instead; so no response shape
exists with an answer but no structured field. -/
theorem C5_thm :
    (∀ caps orc req b, handle_query caps orc req = .json 200 b →
      ∃ raw parsed, b = .envelope (conciseOrEmpty parsed) (rawClean raw) parsed ∧
        isDictOrList parsed = true) ∧
    (∀ caps orc req st b, handle_query caps orc req = .json st b → st ≠ 200 →
      ∃ m, b = .err m) ∧
    (∀ s, rawClean (.vstr s) = .vdict [("result", .vstr s)]) := by
  refine ⟨?_, ?_, fun s => rfl⟩
  · intro caps orc req b hb
    rcases handle_query_cases caps orc req with ⟨m, h⟩ | ⟨m, st, h, hst⟩ | ⟨raw, parsed, h, hd⟩
    · rw [hb] at h
      exact Outcome.noConfusion h
    · rw [hb] at h
      have := (Outcome.json.injEq _ _ _ _).mp h
      exact absurd this.1.symm hst
    · rw [hb] at h
      have := (Outcome.json.injEq _ _ _ _).mp h
      exact ⟨raw, parsed, this.2, hd⟩
  · intro caps orc req st b hb hst
    rcases handle_query_cases caps orc req with ⟨m, h⟩ | ⟨m, st', h, hst'⟩ | ⟨raw, parsed, h, hd⟩
    · rw [hb] at h
      exact Outcome.noConfusion h
    · rw [hb] at h
      have := (Outcome.json.injEq _ _ _ _).mp h
      exact ⟨m, this.2⟩
    · rw [hb] at h
      have := (Outcome.json.injEq _ _ _ _).mp h
      exact absurd this.1 hst

/-- C5 witness: the success-shape conjunct applied to a concrete run that
returns 200. -/
theorem C5_witness :
    handle_query capsOn orcOk reqValid =
      .json 200 (.envelope "A" rawA (.vdict [("answer", .vstr "A")])) ∧
    ∃ raw parsed,
      Body.envelope "A" rawA (.vdict [("answer", .vstr "A")]) =
        .envelope (conciseOrEmpty parsed) (rawClean raw) parsed ∧
      isDictOrList parsed = true :=
  ⟨rfl, C5_thm.1 capsOn orcOk reqValid _ rfl⟩

/-- A mapping at top level, as the spec words the accepted shapes of the
structured parse result. -/
def isMapping : PyVal → Bool
  | .vdict _ => true
  | _ => false

/-- A sequence of mappings at top level, as the spec words the accepted
shapes of the structured parse result. -/
def isSeqOfMappings : PyVal → Bool
  | .vlist xs => xs.all isMapping
  | _ => false

/-- C6: the claim that a parse result is accepted exactly when it is a
mapping or a sequence of mappings is false of the code: the check at
server.py line 232 is isinstance(parsed, (dict, list)), which accepts any
list whatsoever. A parse result that is a list of bare strings is neither
a mapping nor a sequence of mappings, yet the request succeeds with a 200
envelope instead of failing. -/
theorem C6_counterexample :
    (isMapping (.vlist [.vstr "a"]) || isSeqOfMappings (.vlist [.vstr "a"])) = false ∧
    handle_query capsOn orcParseStrList reqValid =
      .json 200 (.envelope "a" rawA (.vlist [.vstr "a"])) :=
  ⟨rfl, rfl⟩

/-- C6 (amended): a parse result is accepted exactly when its top-level
shape is a mapping or a sequence (with elements of any type); only a
result that is neither a dict nor a list is rejected with the 500
structured-data error. -/
theorem C6_amended_thm (fmt : String) (orc : Oracles) (req : Req) (raw : PyVal)
    (atext sout : String) (parsed : PyVal)
    (h1 : tryBlock orc req = .normal raw atext)
    (h2 : orc.llmInvoke (structured_prompt atext fmt) = .ok sout)
    (h3 : orc.parseStructured sout = .ok parsed) :
    handle_query ⟨true, true, true, fmt⟩ orc req =
      if isDictOrList parsed then
        .json 200 (.envelope (conciseOrEmpty parsed) (rawClean raw) parsed)
      else .json 500 (.err msgNotStructuredData) := by
  cases hp : isDictOrList parsed <;>
    simp [handle_query, h1, finallyBlock, h2, h3, hp]

/-- C6 witness: the amended theorem applied to the all-success oracles,
whose parse result is a dict and is accepted. -/
theorem C6_amended_witness :
    tryBlock orcOk reqValid = .normal rawA "ans" ∧
    orcOk.llmInvoke (structured_prompt "ans" "") = .ok "out" ∧
    orcOk.parseStructured "out" = .ok (.vdict [("answer", .vstr "A")]) ∧
    handle_query ⟨true, true, true, ""⟩ orcOk reqValid =
      (if isDictOrList (.vdict [("answer", .vstr "A")]) then
        .json 200 (.envelope (conciseOrEmpty (.vdict [("answer", .vstr "A")]))
          (rawClean rawA) (.vdict [("answer", .vstr "A")]))
      else .json 500 (.err msgNotStructuredData)) :=
  ⟨rfl, rfl, rfl,
    C6_amended_thm "" orcOk reqValid rawA "ans" "out" (.vdict [("answer", .vstr "A")])
      rfl rfl rfl⟩

lemma lookup_mem_of_eq_some {fs : List (String × PyVal)} {k : String} {v : PyVal}
    (h : fs.lookup k = some v) : v ∈ fs.map Prod.snd := by
  induction fs with
  | nil => simp [List.lookup] at h
  | cons kv rest ih =>
    rw [List.lookup] at h
    cases hk : k == kv.1 with
    | true =>
      rw [hk] at h
      have h3 : some kv.2 = some v := h
      have h2 : kv.2 = v := by injection h3
      simp [← h2]
    | false =>
      rw [hk] at h
      have h3 : List.lookup k rest = some v := h
      simp [ih h3]

lemma getTruthy_eq_none_of_all_falsy {fs : List (String × PyVal)} {k : String}
    (h : ∀ v ∈ fs.map Prod.snd, truthy v = false) : getTruthy fs k = none := by
  unfold getTruthy
  cases hl : fs.lookup k with
  | none => rfl
  | some v =>
    show (if truthy v = true then some v else none) = none
    rw [h v (lookup_mem_of_eq_some hl)]
    simp

lemma pyOr_falsy {a b : Option PyVal}
    (ha : optTruthy a = false) (hb : optTruthy b = false) :
    optTruthy (pyOr a b) = false := by
  cases a with
  | none => simpa [pyOr]
  | some v =>
    simp only [optTruthy] at ha
    simpa [pyOr, ha]

lemma optTruthy_lookup_falsy {fs : List (String × PyVal)} {k : String}
    (h : ∀ v ∈ fs.map Prod.snd, truthy v = false) :
    optTruthy (fs.lookup k) = false := by
  cases hl : fs.lookup k with
  | none => rfl
  | some v =>
    simp only [optTruthy]
    exact h v (lookup_mem_of_eq_some hl)

lemma conciseOrEmpty_all_falsy {fs : List (String × PyVal)}
    (h : ∀ v ∈ fs.map Prod.snd, truthy v = false) :
    conciseOrEmpty (.vdict fs) = "" := by
  have hans : getTruthy fs "answer" = none := getTruthy_eq_none_of_all_falsy h
  have hsum : getTruthy fs "summary" = none := getTruthy_eq_none_of_all_falsy h
  have htitle : optTruthy (titleVal fs) = false :=
    pyOr_falsy (optTruthy_lookup_falsy h) (optTruthy_lookup_falsy h)
  have hfilter : (fs.map Prod.snd).filter truthy = [] :=
    List.filter_eq_nil_iff.mpr (by
      intro v hv
      rw [h v hv]
      exact Bool.false_ne_true)
  rw [conciseOrEmpty]
  simp only [_concise_from_structured, hans, hsum, htitle, Bool.false_and,
    Bool.false_eq_true, if_false, hfilter, List.map_nil, Option.getD_some]
  rfl

/-- C10: when the structured parse succeeds but yields an empty mapping,
an empty sequence, or a mapping all of whose values are falsy, the request
still succeeds: the response is the 200 envelope whose answer field is the
empty string (the concise-summary helper produces the empty join, and the
final or-with-empty-string keeps it empty), not an error. -/
theorem C10_thm (fmt : String) (orc : Oracles) (req : Req) (raw : PyVal)
    (atext sout : String) (parsed : PyVal)
    (h1 : tryBlock orc req = .normal raw atext)
    (h2 : orc.llmInvoke (structured_prompt atext fmt) = .ok sout)
    (h3 : orc.parseStructured sout = .ok parsed)
    (h4 : parsed = .vdict [] ∨ parsed = .vlist [] ∨
      (∃ fs, parsed = .vdict fs ∧ ∀ v ∈ fs.map Prod.snd, truthy v = false)) :
    handle_query ⟨true, true, true, fmt⟩ orc req =
      .json 200 (.envelope "" (rawClean raw) parsed) := by
  have hshape : isDictOrList parsed = true := by
    rcases h4 with h | h | ⟨fs, h, _⟩ <;> rw [h] <;> rfl
  have hconcise : conciseOrEmpty parsed = "" := by
    rcases h4 with h | h | ⟨fs, h, hall⟩
    · rw [h]
      rfl
    · rw [h]
      rfl
    · rw [h]
      exact conciseOrEmpty_all_falsy hall
  simp [handle_query, h1, finallyBlock, h2, h3, hshape, hconcise]

/-- C10 witness: the theorem applied to a run whose parse result is the
empty dict. -/
theorem C10_witness :
    tryBlock orcParseEmptyDict reqValid = .normal rawA "ans" ∧
    orcParseEmptyDict.llmInvoke (structured_prompt "ans" "") = .ok "out" ∧
    orcParseEmptyDict.parseStructured "out" = .ok (.vdict []) ∧
    handle_query ⟨true, true, true, ""⟩ orcParseEmptyDict reqValid =
      .json 200 (.envelope "" (rawClean rawA) (.vdict [])) :=
  ⟨rfl, rfl, rfl,
    C10_thm "" orcParseEmptyDict reqValid rawA "ans" "out" (.vdict [])
      rfl rfl rfl (Or.inl rfl)⟩

/-- C7: for every non-empty document text split with maximum chunk size
2000 and overlap 200, every produced chunk has length at most 2000, and
every pair of consecutive chunks overlaps by exactly 200 characters (the
model even guarantees this for the pair involving the final chunk, which
the claim allows to deviate). Settled against the spec-modelled Chunker,
since the concrete splitter is third-party library code. -/
theorem C7_thm (text : List Char) (h : text ≠ []) :
    (∀ c ∈ chunkSplit text 2000 200, c.length ≤ 2000) ∧
    List.Chain' (OverlapsBy 200) (chunkSplit text 2000 200) := by
  have hne : text.isEmpty = false := by
    cases text with
    | nil => exact absurd rfl h
    | cons a l => rfl
  constructor
  · intro c hc
    rw [chunkSplit, hne] at hc
    simp only [Bool.false_eq_true, if_false] at hc
    exact chunkSplitAux_length_le 2000 1800 (by omega) text.length text le_rfl c hc
  · rw [chunkSplit, hne]
    simp only [Bool.false_eq_true, if_false]
    exact chunkSplitAux_chain 2000 1800 200 (by omega) (by omega) (by omega)
      text.length text le_rfl

/-- C7 witness: the theorem applied to a one-character text. -/
theorem C7_witness :
    (['a'] : List Char) ≠ [] ∧
    ((∀ c ∈ chunkSplit ['a'] 2000 200, c.length ≤ 2000) ∧
      List.Chain' (OverlapsBy 200) (chunkSplit ['a'] 2000 200)) :=
  ⟨by decide, C7_thm ['a'] (by decide)⟩

/-- C8: the retrieval step, settled against the spec-modelled index
(FAISS is third-party library code): for every chunk-vector list, query
vector and k, the retrieved index list has length min k n, contains only
valid chunk indices, contains only chunks whose cosine similarity to the
query is at least that of every non-retrieved chunk (the k most similar),
and is ordered by strictly descending cosine similarity with equal
similarities broken by ascending original chunk order; determinism is
inherent, the result being a function of the inputs. -/
theorem C8_thm (vecs : List (List ℚ)) (qv : List ℚ) (k : Nat) :
    (retrieveTopK vecs qv k).length = min k vecs.length ∧
    (∀ i ∈ retrieveTopK vecs qv k, i < vecs.length) ∧
    (∀ i ∈ retrieveTopK vecs qv k, ∀ j, j < vecs.length → j ∉ retrieveTopK vecs qv k →
      cosineSim (vecs.getD j []) qv ≤ cosineSim (vecs.getD i []) qv) ∧
    List.Pairwise (fun i j =>
      cosineSim (vecs.getD j []) qv < cosineSim (vecs.getD i []) qv ∨
        (cosineSim (vecs.getD i []) qv = cosineSim (vecs.getD j []) qv ∧ i < j))
      (retrieveTopK vecs qv k) :=
  ⟨retrieveTopK_length vecs qv k, retrieveTopK_mem_lt vecs qv k,
    retrieveTopK_topk vecs qv k, retrieveTopK_sorted vecs qv k⟩

/-- C8 witness: the top-k conjunct applied to a two-chunk index where the
first chunk matches the query and the second is the zero vector. -/
theorem C8_witness :
    (0 ∈ retrieveTopK [[(1 : ℚ)], [0]] [1] 1) ∧
    (1 < ([[(1 : ℚ)], [0]] : List (List ℚ)).length) ∧
    (1 ∉ retrieveTopK [[(1 : ℚ)], [0]] [1] 1) ∧
    cosineSim (([[(1 : ℚ)], [0]] : List (List ℚ)).getD 1 []) [1] ≤
      cosineSim (([[(1 : ℚ)], [0]] : List (List ℚ)).getD 0 []) [1] := by
  have h1 : (0 ∈ retrieveTopK [[(1 : ℚ)], [0]] [1] 1) := by
    norm_num [retrieveTopK, List.insertionSort, List.orderedInsert, chunkRank,
      chunkRankLe, cosKeyLe, cosLe, dotQ, sqNorm]
  have h2 : (1 < ([[(1 : ℚ)], [0]] : List (List ℚ)).length) := by norm_num
  have h3 : (1 ∉ retrieveTopK [[(1 : ℚ)], [0]] [1] 1) := by
    norm_num [retrieveTopK, List.insertionSort, List.orderedInsert, chunkRank,
      chunkRankLe, cosKeyLe, cosLe, dotQ, sqNorm]
  exact ⟨h1, h2, h3, (C8_thm [[(1 : ℚ)], [0]] [1] 1).2.2.1 0 h1 1 h2 h3⟩

end WebQA
